import Mathlib

/-!
Shallow embedding of the JoséCoin ledger backend (jcoin/josecoin.py).

Monetary amounts are Python `decimal.Decimal` values, i.e. exact decimal
arithmetic; we model them as rationals (`ℚ`).  The relational store is
modelled as three lists of rows (accounts, wallets, transactions); SQL
UPDATE statements become maps over the matching rows and SQL INSERT
statements become appends.
-/

namespace Josecoin

/- Account types (class `AccountType` in josecoin.py): USER = 0, TAXBANK = 1.
`account_type` is stored as a plain integer; `create_account` inserts whatever
integer the request carries, without validating it against these two values. -/
namespace AccountType

def USER : Int := 0

def TAXBANK : Int := 1

end AccountType

/-- One row of the `accounts` table: account_id, account_type, amount. -/
structure AccountRow where
  account_id : Int
  account_type : Int
  amount : ℚ
deriving DecidableEq, Repr

/-- One row of the `wallets` table: user_id plus the taxpaid and steal counters. -/
structure WalletRow where
  user_id : Int
  taxpaid : ℚ
  steal_uses : Int
  steal_success : Int
deriving DecidableEq, Repr

/-- One row of the `transactions` audit table. -/
structure TransactionRow where
  sender : Int
  receiver : Int
  amount : ℚ
deriving DecidableEq, Repr

/-- The state of the relational store used by josecoin.py. -/
structure DB where
  accounts : List AccountRow
  wallets : List WalletRow
  transactions : List TransactionRow
deriving DecidableEq, Repr

/-- The error kinds raised by the endpoints (imported from the `errors`
module): InputError, AccountNotFoundError, ConditionError.  The ConditionError
message is the f-string interpolating both compared values
(`Not enough funds: {amount} > {sender_amount}`); we model it as carrying the
two values themselves.  `internalError` stands for an unhandled Python
exception (e.g. a TypeError), which the Sanic app does not map to a domain
error and which surfaces as a generic 500. -/
inductive JErr where
  | inputError (msg : String)
  | accountNotFoundError (msg : String)
  | conditionError (amount sender_amount : ℚ)
  | internalError (msg : String)
deriving DecidableEq, Repr

/-- The minimum-amount threshold of `transfer` (josecoin.py line 109):
the Python float literal `0.0009`.  Python compares `decimal.Decimal` with
`float` by exact value, and the IEEE-754 double nearest to 0.0009 is
4150517416584649 / 2^62 = 0.00089999999999999997536…, which is strictly
below the exact decimal 0.0009. -/
def minAmount : ℚ := 4150517416584649 / 4611686018427387904

/-- Look an account up by id (`SELECT ... WHERE account_id = $1`, and the
`accounts.get(...)` on the dict built from the fetched rows). -/
def fetchAccount (accounts : List AccountRow) (i : Int) : Option AccountRow :=
  match accounts with
  | [] => none
  | a :: rest => if a.account_id = i then some a else fetchAccount rest i

/-- `UPDATE accounts SET amount = accounts.amount + delta WHERE account_id = i`:
every matching row gets its amount shifted by delta. -/
def updateAmount (accounts : List AccountRow) (i : Int) (delta : ℚ) :
    List AccountRow :=
  accounts.map fun a =>
    if a.account_id = i then { a with amount := a.amount + delta } else a

/-- The `transfer` endpoint (josecoin.py lines 100-156).  Checks in source
order: self-transfer, minimum amount, sender existence, receiver existence,
funds.  On success the debit, the credit and the transaction-log insert run
inside one store transaction, and the returned pair is computed from the
pre-transaction reads: `sender_amount - amount` and `receiver.amount + amount`. -/
def transfer (db : DB) (sender_id receiver_id : Int) (amount : ℚ) :
    Except JErr (DB × ℚ × ℚ) :=
  if receiver_id = sender_id then
    .error (.inputError "Account can not transfer to itself")
  else if amount < minAmount then
    .error (.inputError "Negative amounts are not allowed")
  else
    match fetchAccount db.accounts sender_id with
    | none => .error (.accountNotFoundError "Sender is missing account")
    | some sender =>
      match fetchAccount db.accounts receiver_id with
      | none => .error (.accountNotFoundError "Receiver is missing account")
      | some receiver =>
        let sender_amount := sender.amount
        if sender_amount < amount then
          .error (.conditionError amount sender_amount)
        else
          .ok ({ accounts :=
                   updateAmount (updateAmount db.accounts sender_id (-amount))
                     receiver_id amount,
                 wallets := db.wallets,
                 transactions :=
                   db.transactions ++ [⟨sender_id, receiver_id, amount⟩] },
               sender_amount - amount,
               receiver.amount + amount)

/-- The store state after one `transfer` request: the new state on success,
the unchanged state when the endpoint raises (every raise in `transfer`
happens before the store transaction opens). -/
def applyTransfer (db : DB) (req : Int × Int × ℚ) : DB :=
  match transfer db req.1 req.2.1 req.2.2 with
  | .ok (db2, _, _) => db2
  | .error _ => db

/-- Modelled from the spec: the database schema is not under src/; per the
spec, a newly inserted account starts at the store default balance of zero. -/
def defaultAmount : ℚ := 0

/-- Modelled from the spec: the database schema is not under src/; per the
spec, `INSERT INTO wallets (user_id) VALUES ($1)` creates a wallet row whose
taxpaid and steal counters default to zero. -/
def defaultWallet (uid : Int) : WalletRow :=
  ⟨uid, 0, 0, 0⟩

/-- The `create_account` endpoint (josecoin.py lines 76-97).  It runs two
separate auto-committed statements with no enclosing transaction: first
`INSERT INTO accounts`, then, for account_type 0 (USER), `INSERT INTO wallets`.
`walletInsertFails` injects a failure of that second statement: the function
then raises (returns `false`), but the account insert has already committed
and stays.  The returned Bool is whether the endpoint completed without
raising. -/
def create_account (db : DB) (account_id account_type : Int)
    (walletInsertFails : Bool) : DB × Bool :=
  let db1 : DB :=
    { db with accounts := db.accounts ++ [⟨account_id, account_type, defaultAmount⟩] }
  if account_type = 0 then
    if walletInsertFails then
      (db1, false)
    else
      ({ db1 with wallets := db1.wallets ++ [defaultWallet account_id] }, true)
  else
    (db1, true)

/-- The row count an `UPDATE wallets ... WHERE user_id = $1` statement
reports (the `items` parsed out of the `UPDATE n` status string). -/
def matchedWallets (wallets : List WalletRow) (uid : Int) : Nat :=
  match wallets with
  | [] => 0
  | w :: rest => (if w.user_id = uid then 1 else 0) + matchedWallets rest uid

/-- The `inc_steal_use` endpoint (josecoin.py lines 159-179):
`UPDATE wallets SET steal_uses = steal_uses + 1 WHERE user_id = $1`, then
`success` is whether the reported row count is nonzero (`if items:`). -/
def inc_steal_use (db : DB) (wallet_id : Int) : DB × Bool :=
  let items := matchedWallets db.wallets wallet_id
  let wallets2 := db.wallets.map fun w =>
    if w.user_id = wallet_id then { w with steal_uses := w.steal_uses + 1 } else w
  ({ db with wallets := wallets2 }, items != 0)

/-- The `inc_steal_success` endpoint (josecoin.py lines 182-202), identical to
`inc_steal_use` but for the steal_success counter. -/
def inc_steal_success (db : DB) (wallet_id : Int) : DB × Bool :=
  let items := matchedWallets db.wallets wallet_id
  let wallets2 := db.wallets.map fun w =>
    if w.user_id = wallet_id then { w with steal_success := w.steal_success + 1 } else w
  ({ db with wallets := wallets2 }, items != 0)

/-- The merged view returned by `get_wallet`: the account fields, plus the
wallet fields (taxpaid, steal_uses, steal_success) when present. -/
structure WalletView where
  account_id : Int
  account_type : Int
  amount : ℚ
  wallet_fields : Option (ℚ × Int × Int)
deriving DecidableEq, Repr

/-- Look a wallet up by user id (`SELECT taxpaid, steal_uses, steal_success
FROM wallets WHERE user_id = $1`). -/
def fetchWallet (wallets : List WalletRow) (uid : Int) : Option WalletRow :=
  match wallets with
  | [] => none
  | w :: rest => if w.user_id = uid then some w else fetchWallet rest uid

/-- The `get_wallet` endpoint (josecoin.py lines 47-73).  For a USER account
it unconditionally merges the wallet query result into the account dict:
`daccount.update(dict(wallet))`.  When no wallet row matches, `wallet` is
None and `dict(None)` raises TypeError, an unhandled internal error rather
than an AccountNotFoundError. -/
def get_wallet (db : DB) (account_id : Int) : Except JErr WalletView :=
  match fetchAccount db.accounts account_id with
  | none => .error (.accountNotFoundError "Account not found")
  | some account =>
    if account.account_type = AccountType.USER then
      match fetchWallet db.wallets account_id with
      | none => .error (.internalError "TypeError")
      | some w =>
        .ok ⟨account.account_id, account.account_type, account.amount,
             some (w.taxpaid, w.steal_uses, w.steal_success)⟩
    else
      .ok ⟨account.account_id, account.account_type, account.amount, none⟩

/-- `SELECT SUM(amount) FROM accounts WHERE account_type = $1` (`getsum`,
josecoin.py lines 216-222).  An empty SUM is NULL in SQL; the aggregation
layer only echoes it into JSON, so we model the sum as 0 on no rows. -/
def getsum (db : DB) (acc_type : Int) : ℚ :=
  ((db.accounts.filter fun a => decide (a.account_type = acc_type)).map (·.amount)).sum

/-- `SELECT SUM(amount) FROM accounts` (`get_gdp`, josecoin.py lines 231-236). -/
def get_gdp (db : DB) : ℚ :=
  (db.accounts.map (·.amount)).sum

/-- `get_sums` (josecoin.py lines 258-267): gdp, user sum, taxbank sum. -/
def get_sums (db : DB) : ℚ × ℚ × ℚ :=
  (get_gdp db, getsum db AccountType.USER, getsum db AccountType.TAXBANK)

/-- A concrete store: USER account 1 holding 100, USER account 2 holding 0
(the balances of the example scenario of the spec; balances are seeded by
the store, account creation itself starts at zero). -/
def db0 : DB :=
  ⟨[⟨1, 0, 100⟩, ⟨2, 0, 0⟩], [], []⟩

/-- The empty store. -/
def dbEmpty : DB :=
  ⟨[], [], []⟩

/-- Claim C3: Transfer(x, x, amount) always returns InputError, regardless of
the balance of x, of whether x exists, and of the amount; no state is
modified (the raise precedes every store access). -/
theorem transfer_self_inputError (db : DB) (x : Int) (amount : ℚ) :
    transfer db x x amount = .error (.inputError "Account can not transfer to itself")
    ∧ applyTransfer db (x, x, amount) = db := by
  constructor
  · simp [transfer]
  · simp [applyTransfer, transfer]

/-- Total amount held by a list of account rows. -/
def amountSum (l : List AccountRow) : ℚ :=
  (l.map (·.amount)).sum

lemma get_gdp_eq_amountSum (db : DB) : get_gdp db = amountSum db.accounts :=
  rfl

lemma fetchAccount_mem {l : List AccountRow} {i : Int} {a : AccountRow}
    (h : fetchAccount l i = some a) : a ∈ l ∧ a.account_id = i := by
  induction l with
  | nil => cases h
  | cons b rest ih =>
    unfold fetchAccount at h
    by_cases hb : b.account_id = i
    · rw [if_pos hb] at h
      cases h
      exact ⟨List.mem_cons_self _ _, hb⟩
    · rw [if_neg hb] at h
      obtain ⟨hmem, hid⟩ := ih h
      exact ⟨List.mem_cons_of_mem b hmem, hid⟩

lemma updateAmount_map_account_id (l : List AccountRow) (i : Int) (d : ℚ) :
    (updateAmount l i d).map (·.account_id) = l.map (·.account_id) := by
  induction l with
  | nil => rfl
  | cons a rest ih =>
    simp only [updateAmount, List.map_cons] at ih ⊢
    by_cases h : a.account_id = i
    · rw [if_pos h]
      exact congrArg (a.account_id :: ·) ih
    · rw [if_neg h]
      exact congrArg (a.account_id :: ·) ih

lemma updateAmount_eq_self (l : List AccountRow) (i : Int) (d : ℚ)
    (h : ∀ a ∈ l, a.account_id ≠ i) : updateAmount l i d = l := by
  induction l with
  | nil => rfl
  | cons a rest ih =>
    simp only [updateAmount, List.map_cons]
    rw [if_neg (h a (List.mem_cons_self a rest))]
    exact congrArg (a :: ·) (ih fun b hb => h b (List.mem_cons_of_mem a hb))

lemma fetchAccount_updateAmount (l : List AccountRow) (i j : Int) (d : ℚ) :
    fetchAccount (updateAmount l j d) i =
      (fetchAccount l i).map
        (fun a => if a.account_id = j then { a with amount := a.amount + d } else a) := by
  induction l with
  | nil => rfl
  | cons a rest ih =>
    have hid : (if a.account_id = j then { a with amount := a.amount + d } else a).account_id
        = a.account_id := by
      by_cases h : a.account_id = j
      · rw [if_pos h]
      · rw [if_neg h]
    simp only [updateAmount, List.map_cons] at ih ⊢
    unfold fetchAccount
    by_cases h : a.account_id = i
    · rw [hid, if_pos h, if_pos h]
      rfl
    · rw [hid, if_neg h, if_neg h]
      exact ih

lemma amountSum_updateAmount (l : List AccountRow) (i : Int) (d : ℚ) (a : AccountRow)
    (hnd : (l.map (·.account_id)).Nodup) (hf : fetchAccount l i = some a) :
    amountSum (updateAmount l i d) = amountSum l + d := by
  induction l with
  | nil => cases hf
  | cons b rest ih =>
    simp only [List.map_cons, List.nodup_cons] at hnd
    by_cases h : b.account_id = i
    · have hrest : updateAmount rest i d = rest := by
        refine updateAmount_eq_self rest i d fun c hc hci => ?_
        exact hnd.1 (h ▸ hci ▸ List.mem_map_of_mem (·.account_id) hc)
      have hcons : updateAmount (b :: rest) i d =
          { b with amount := b.amount + d } :: updateAmount rest i d := by
        simp only [updateAmount, List.map_cons, if_pos h]
      rw [hcons, hrest]
      simp only [amountSum, List.map_cons, List.sum_cons]
      ring
    · have hf2 : fetchAccount rest i = some a := by
        unfold fetchAccount at hf
        rwa [if_neg h] at hf
      have hcons : updateAmount (b :: rest) i d = b :: updateAmount rest i d := by
        simp only [updateAmount, List.map_cons, if_neg h]
      rw [hcons]
      simp only [amountSum, List.map_cons, List.sum_cons] at ih ⊢
      rw [ih hnd.2 hf2]
      ring

/-- Dissection of a successful transfer: the accounts the validation read,
the state written back, and the returned balances. -/
lemma transfer_ok_state {db : DB} {sender_id receiver_id : Int} {amount : ℚ}
    {db2 : DB} {sa ra : ℚ}
    (h : transfer db sender_id receiver_id amount = .ok (db2, sa, ra)) :
    ∃ sender receiver,
      fetchAccount db.accounts sender_id = some sender ∧
      fetchAccount db.accounts receiver_id = some receiver ∧
      db2.accounts =
        updateAmount (updateAmount db.accounts sender_id (-amount)) receiver_id amount ∧
      db2.wallets = db.wallets ∧
      sa = sender.amount - amount ∧ ra = receiver.amount + amount := by
  unfold transfer at h
  split at h
  · simp at h
  · split at h
    · simp at h
    · split at h
      · simp at h
      · next sender hs =>
        split at h
        · simp at h
        · next receiver hr =>
          simp only [] at h
          split at h
          · simp at h
          · simp only [Except.ok.injEq, Prod.mk.injEq] at h
            obtain ⟨h1, h2, h3⟩ := h
            exact ⟨sender, receiver, hs, hr, by rw [← h1], by rw [← h1], h2.symm, h3.symm⟩

lemma transfer_ok_gdp {db : DB} {sender_id receiver_id : Int} {amount : ℚ}
    {db2 : DB} {sa ra : ℚ}
    (hnd : (db.accounts.map (·.account_id)).Nodup)
    (h : transfer db sender_id receiver_id amount = .ok (db2, sa, ra)) :
    get_gdp db2 = get_gdp db ∧ (db2.accounts.map (·.account_id)).Nodup := by
  obtain ⟨sender, receiver, hs, hr, hacc, -, -, -⟩ := transfer_ok_state h
  have hnd1 : ((updateAmount db.accounts sender_id (-amount)).map (·.account_id)).Nodup := by
    rw [updateAmount_map_account_id]
    exact hnd
  have hr1 : fetchAccount (updateAmount db.accounts sender_id (-amount)) receiver_id =
      some (if receiver.account_id = sender_id
            then { receiver with amount := receiver.amount + -amount } else receiver) := by
    rw [fetchAccount_updateAmount, hr]
    rfl
  constructor
  · rw [get_gdp_eq_amountSum, get_gdp_eq_amountSum, hacc,
      amountSum_updateAmount _ _ _ _ hnd1 hr1,
      amountSum_updateAmount _ _ _ _ hnd hs]
    ring
  · rw [hacc, updateAmount_map_account_id, updateAmount_map_account_id]
    exact hnd

/-- Claim C1: over any sequence of Transfer requests, the total amount over
all accounts (all balances are finite decimals here; josecoin.py has no
infinite sentinel) is conserved: each successful transfer debits the sender
and credits the receiver by exactly the same amount, and failed requests do
not touch the store. -/
theorem transfer_sequence_conserves_gdp (db : DB) (reqs : List (Int × Int × ℚ))
    (hnd : (db.accounts.map (·.account_id)).Nodup) :
    get_gdp (reqs.foldl applyTransfer db) = get_gdp db := by
  induction reqs generalizing db with
  | nil => rfl
  | cons req rest ih =>
    have hstep : get_gdp (applyTransfer db req) = get_gdp db ∧
        ((applyTransfer db req).accounts.map (·.account_id)).Nodup := by
      unfold applyTransfer
      cases h : transfer db req.1 req.2.1 req.2.2 with
      | error e => exact ⟨rfl, hnd⟩
      | ok x =>
        obtain ⟨db2, sa, ra⟩ := x
        exact transfer_ok_gdp hnd h
    rw [List.foldl_cons, ih _ hstep.2, hstep.1]

/-- Witness for C1 at a concrete store and request sequence. -/
theorem transfer_sequence_conserves_gdp_witness :
    get_gdp ([((1 : Int), (2 : Int), (30 : ℚ))].foldl applyTransfer db0) = get_gdp db0 :=
  transfer_sequence_conserves_gdp db0 [(1, 2, 30)] (by decide)

/-- Claim C2: when both accounts exist, the transfer is not a self-transfer,
the amount passes the minimum check, and the amount exceeds the sender
balance, `transfer` returns ConditionError carrying both compared values
(the code interpolates exactly these two into its message) and leaves the
store, hence both balances, unchanged: the raise precedes the transaction. -/
theorem transfer_insufficient_funds (db : DB) (sender_id receiver_id : Int)
    (amount : ℚ) (sender receiver : AccountRow)
    (hself : receiver_id ≠ sender_id)
    (hmin : ¬ amount < minAmount)
    (hs : fetchAccount db.accounts sender_id = some sender)
    (hr : fetchAccount db.accounts receiver_id = some receiver)
    (hfunds : sender.amount < amount) :
    transfer db sender_id receiver_id amount =
      .error (.conditionError amount sender.amount)
    ∧ applyTransfer db (sender_id, receiver_id, amount) = db := by
  have ht : transfer db sender_id receiver_id amount =
      .error (.conditionError amount sender.amount) := by
    unfold transfer
    rw [if_neg hself, if_neg hmin, hs, hr]
    simp only [if_pos hfunds]
  refine ⟨ht, ?_⟩
  unfold applyTransfer
  rw [ht]

/-- Witness for C2: asking for 1000 out of a balance of 100. -/
theorem transfer_insufficient_funds_witness :
    transfer db0 1 2 1000 = .error (.conditionError 1000 100)
    ∧ applyTransfer db0 (1, 2, 1000) = db0 :=
  transfer_insufficient_funds db0 1 2 1000 ⟨1, 0, 100⟩ ⟨2, 0, 0⟩
    (by decide) (by norm_num [minAmount])
    (by norm_num [db0, fetchAccount]) (by norm_num [db0, fetchAccount])
    (by norm_num)

/-- Claim C5: every successful transfer returns
`sender_amount = pre-read sender balance - amount` and
`receiver_amount = pre-read receiver balance + amount`, both computed from
the pre-transaction snapshot plus delta. -/
theorem transfer_ok_returns_snapshot (db : DB) (sender_id receiver_id : Int)
    (amount : ℚ) (db2 : DB) (sa ra : ℚ)
    (h : transfer db sender_id receiver_id amount = .ok (db2, sa, ra)) :
    ∃ sender receiver,
      fetchAccount db.accounts sender_id = some sender ∧
      fetchAccount db.accounts receiver_id = some receiver ∧
      sa = sender.amount - amount ∧ ra = receiver.amount + amount := by
  obtain ⟨sender, receiver, hs, hr, -, -, h1, h2⟩ := transfer_ok_state h
  exact ⟨sender, receiver, hs, hr, h1, h2⟩

/-- Witness for C5: with balances 100 and 0, Transfer(1, 2, 30) returns
sender 70 and receiver 30. -/
theorem transfer_ok_returns_snapshot_witness :
    ∃ sender receiver,
      fetchAccount db0.accounts 1 = some sender ∧
      fetchAccount db0.accounts 2 = some receiver ∧
      (70 : ℚ) = sender.amount - 30 ∧ (30 : ℚ) = receiver.amount + 30 :=
  transfer_ok_returns_snapshot db0 1 2 30
    ⟨[⟨1, 0, 70⟩, ⟨2, 0, 30⟩], [], [⟨1, 2, 30⟩]⟩ 70 30
    (by norm_num [transfer, db0, fetchAccount, updateAmount, minAmount])

/-- Counterexample to C4: the code compares the Decimal amount against the
float literal `0.0009`, whose exact value `minAmount` is strictly below the
decimal 0.0009 = 9/10000.  So the amount `minAmount` is strictly below the
claimed exact minimum 0.0009 and yet the transfer is accepted, refuting
"amount < 0.0009 returns InputError". -/
theorem transfer_min_decimal_counterexample :
    minAmount < 9 / 10000 ∧
    transfer db0 1 2 minAmount =
      .ok (⟨[⟨1, 0, 100 - minAmount⟩, ⟨2, 0, minAmount⟩], [], [⟨1, 2, minAmount⟩]⟩,
           100 - minAmount, minAmount) := by
  constructor
  · norm_num [minAmount]
  · norm_num [transfer, db0, fetchAccount, updateAmount, minAmount]

/-- Claim C4 as amended: the minimum transferable unit is not the exact
decimal 0.0009 but `minAmount`, the binary double nearest 0.0009 (slightly
below it): any amount strictly below `minAmount` (including 0.0005 and all
negative amounts) yields InputError, and any amount at least `minAmount`
(including the exact decimal 0.0009) passes the minimum check and is
accepted when both distinct accounts exist and the sender funds suffice. -/
theorem transfer_min_threshold_amended (db : DB) (a b : Int) (amount : ℚ)
    (sender receiver : AccountRow)
    (hab : b ≠ a)
    (hs : fetchAccount db.accounts a = some sender)
    (hr : fetchAccount db.accounts b = some receiver) :
    (amount < minAmount →
      transfer db a b amount = .error (.inputError "Negative amounts are not allowed")) ∧
    (minAmount ≤ amount → amount ≤ sender.amount →
      transfer db a b amount =
        .ok (applyTransfer db (a, b, amount),
             sender.amount - amount, receiver.amount + amount)) := by
  constructor
  · intro hlt
    unfold transfer
    rw [if_neg hab, if_pos hlt]
  · intro hge hfunds
    have ht : transfer db a b amount =
        .ok ({ accounts := updateAmount (updateAmount db.accounts a (-amount)) b amount,
               wallets := db.wallets,
               transactions := db.transactions ++ [⟨a, b, amount⟩] },
             sender.amount - amount, receiver.amount + amount) := by
      unfold transfer
      rw [if_neg hab, if_neg (not_lt.mpr hge), hs, hr]
      simp only [if_neg (not_lt.mpr hfunds)]
    have ha : applyTransfer db (a, b, amount) =
        { accounts := updateAmount (updateAmount db.accounts a (-amount)) b amount,
          wallets := db.wallets,
          transactions := db.transactions ++ [⟨a, b, amount⟩] } := by
      unfold applyTransfer
      rw [ht]
    rw [ha]
    exact ht

/-- Witness for the amended C4: 0.0005 is rejected, the exact decimal 0.0009
is accepted out of a balance of 100. -/
theorem transfer_min_threshold_amended_witness :
    transfer db0 1 2 (1 / 2000) = .error (.inputError "Negative amounts are not allowed")
    ∧ transfer db0 1 2 (9 / 10000) =
        .ok (applyTransfer db0 (1, 2, 9 / 10000), 100 - 9 / 10000, 0 + 9 / 10000) := by
  constructor
  · exact (transfer_min_threshold_amended db0 1 2 (1 / 2000) ⟨1, 0, 100⟩ ⟨2, 0, 0⟩
      (by decide) (by norm_num [db0, fetchAccount]) (by norm_num [db0, fetchAccount])).1
      (by norm_num [minAmount])
  · exact (transfer_min_threshold_amended db0 1 2 (9 / 10000) ⟨1, 0, 100⟩ ⟨2, 0, 0⟩
      (by decide) (by norm_num [db0, fetchAccount]) (by norm_num [db0, fetchAccount])).2
      (by norm_num [minAmount]) (by norm_num)

lemma fetchAccount_append_of_none {l : List AccountRow} {i : Int} (row : AccountRow)
    (hl : fetchAccount l i = none) (hrow : row.account_id = i) :
    fetchAccount (l ++ [row]) i = some row := by
  induction l with
  | nil => simp [fetchAccount, hrow]
  | cons a rest ih =>
    unfold fetchAccount at hl
    rw [List.cons_append]
    unfold fetchAccount
    by_cases h : a.account_id = i
    · rw [if_pos h] at hl
      cases hl
    · rw [if_neg h] at hl ⊢
      exact ih hl

lemma fetchWallet_append_of_none {l : List WalletRow} {i : Int} (row : WalletRow)
    (hl : fetchWallet l i = none) (hrow : row.user_id = i) :
    fetchWallet (l ++ [row]) i = some row := by
  induction l with
  | nil => simp [fetchWallet, hrow]
  | cons w rest ih =>
    unfold fetchWallet at hl
    rw [List.cons_append]
    unfold fetchWallet
    by_cases h : w.user_id = i
    · rw [if_pos h] at hl
      cases hl
    · rw [if_neg h] at hl ⊢
      exact ih hl

/-- Counterexample to C6: `create_account` runs the account INSERT and the
wallet INSERT as two separate auto-committed statements with no enclosing
transaction (josecoin.py lines 85-94).  When the wallet INSERT fails, the
endpoint raises with the account row already committed: after the call the
Account row for 42 exists and no Wallet row does, refuting "either both rows
exist or neither does". -/
theorem create_account_atomicity_counterexample :
    (create_account dbEmpty 42 AccountType.USER true).2 = false ∧
    fetchAccount (create_account dbEmpty 42 AccountType.USER true).1.accounts 42 =
      some ⟨42, AccountType.USER, defaultAmount⟩ ∧
    (create_account dbEmpty 42 AccountType.USER true).1.wallets = [] := by
  refine ⟨rfl, ?_, rfl⟩
  norm_num [create_account, dbEmpty, fetchAccount, AccountType.USER]

/-- Claim C6 as amended: for a fresh account_id, CreateAccount(id, USER)
inserts the Account row and then a Wallet row with zero-valued counters as
two separate statements; when both statements succeed, both rows exist
afterwards, and CreateAccount(id, TAXBANK) inserts only the Account row.
The pair is not a single atomic unit: a failure of the wallet INSERT leaves
the already-committed Account row without a Wallet row. -/
theorem create_account_pairing_amended (db : DB) (account_id : Int)
    (hafresh : fetchAccount db.accounts account_id = none)
    (hwfresh : fetchWallet db.wallets account_id = none) :
    ((create_account db account_id AccountType.USER false).2 = true ∧
     fetchAccount (create_account db account_id AccountType.USER false).1.accounts
       account_id = some ⟨account_id, AccountType.USER, defaultAmount⟩ ∧
     fetchWallet (create_account db account_id AccountType.USER false).1.wallets
       account_id = some (defaultWallet account_id)) ∧
    ((create_account db account_id AccountType.TAXBANK false).2 = true ∧
     fetchAccount (create_account db account_id AccountType.TAXBANK false).1.accounts
       account_id = some ⟨account_id, AccountType.TAXBANK, defaultAmount⟩ ∧
     (create_account db account_id AccountType.TAXBANK false).1.wallets = db.wallets) := by
  refine ⟨⟨rfl, ?_, ?_⟩, ⟨?_, ?_, ?_⟩⟩
  · simp only [create_account, AccountType.USER, if_pos rfl, if_neg Bool.false_ne_true]
    exact fetchAccount_append_of_none _ hafresh rfl
  · simp only [create_account, AccountType.USER, if_pos rfl, if_neg Bool.false_ne_true]
    exact fetchWallet_append_of_none _ hwfresh rfl
  · simp [create_account, AccountType.TAXBANK]
  · simp only [create_account, AccountType.TAXBANK, if_neg (by decide : ¬ (1 : Int) = 0)]
    exact fetchAccount_append_of_none _ hafresh rfl
  · simp [create_account, AccountType.TAXBANK]

/-- Witness for the amended C6 on the empty store, ids 42 and 43. -/
theorem create_account_pairing_amended_witness :
    ((create_account dbEmpty 42 AccountType.USER false).2 = true ∧
     fetchAccount (create_account dbEmpty 42 AccountType.USER false).1.accounts 42 =
       some ⟨42, AccountType.USER, defaultAmount⟩ ∧
     fetchWallet (create_account dbEmpty 42 AccountType.USER false).1.wallets 42 =
       some (defaultWallet 42)) ∧
    ((create_account dbEmpty 43 AccountType.TAXBANK false).2 = true ∧
     fetchAccount (create_account dbEmpty 43 AccountType.TAXBANK false).1.accounts 43 =
       some ⟨43, AccountType.TAXBANK, defaultAmount⟩ ∧
     (create_account dbEmpty 43 AccountType.TAXBANK false).1.wallets = dbEmpty.wallets) :=
  ⟨(create_account_pairing_amended dbEmpty 42 rfl rfl).1,
   (create_account_pairing_amended dbEmpty 43 rfl rfl).2⟩

lemma matchedWallets_ne_zero {l : List WalletRow} {uid : Int} {w : WalletRow}
    (h : fetchWallet l uid = some w) : matchedWallets l uid ≠ 0 := by
  induction l with
  | nil => cases h
  | cons v rest ih =>
    unfold fetchWallet at h
    unfold matchedWallets
    by_cases hv : v.user_id = uid
    · rw [if_pos hv]
      omega
    · rw [if_neg hv] at h ⊢
      have := ih h
      omega

lemma matchedWallets_eq_zero {l : List WalletRow} {uid : Int}
    (h : fetchWallet l uid = none) : matchedWallets l uid = 0 := by
  induction l with
  | nil => rfl
  | cons v rest ih =>
    unfold fetchWallet at h
    unfold matchedWallets
    by_cases hv : v.user_id = uid
    · rw [if_pos hv] at h
      cases h
    · rw [if_neg hv] at h ⊢
      rw [ih h]

lemma fetchWallet_map_update (l : List WalletRow) (uid : Int)
    (g : WalletRow → WalletRow) (hg : ∀ w, (g w).user_id = w.user_id) :
    fetchWallet (l.map fun w => if w.user_id = uid then g w else w) uid =
      (fetchWallet l uid).map g := by
  induction l with
  | nil => rfl
  | cons v rest ih =>
    simp only [List.map_cons]
    by_cases hv : v.user_id = uid
    · rw [show (if v.user_id = uid then g v else v) = g v from if_pos hv]
      unfold fetchWallet
      rw [if_pos (show (g v).user_id = uid by rw [hg]; exact hv), if_pos hv]
      rfl
    · rw [show (if v.user_id = uid then g v else v) = v from if_neg hv]
      unfold fetchWallet
      rw [if_neg hv, if_neg hv]
      exact ih

lemma map_update_of_none {l : List WalletRow} {uid : Int}
    (g : WalletRow → WalletRow) (h : fetchWallet l uid = none) :
    (l.map fun w => if w.user_id = uid then g w else w) = l := by
  induction l with
  | nil => rfl
  | cons v rest ih =>
    unfold fetchWallet at h
    by_cases hv : v.user_id = uid
    · rw [if_pos hv] at h
      cases h
    · rw [if_neg hv] at h
      simp only [List.map_cons, if_neg hv]
      exact congrArg (v :: ·) (ih h)

/-- Claim C7: IncrementSteal never raises for an absent wallet.  When a
wallet row matches the user id, both increment endpoints report
success = true and the matching wallet has the named counter (and only it)
incremented by exactly 1; when no wallet matches, both report
success = false and leave the store entirely unchanged. -/
theorem inc_steal_matched_or_absent (db : DB) (uid : Int) :
    (∀ w, fetchWallet db.wallets uid = some w →
      (inc_steal_use db uid).2 = true ∧
      fetchWallet (inc_steal_use db uid).1.wallets uid =
        some { w with steal_uses := w.steal_uses + 1 } ∧
      (inc_steal_success db uid).2 = true ∧
      fetchWallet (inc_steal_success db uid).1.wallets uid =
        some { w with steal_success := w.steal_success + 1 }) ∧
    (fetchWallet db.wallets uid = none →
      inc_steal_use db uid = (db, false) ∧
      inc_steal_success db uid = (db, false)) := by
  constructor
  · intro w hw
    have hitems : (matchedWallets db.wallets uid != 0) = true := by
      simpa using matchedWallets_ne_zero hw
    refine ⟨hitems, ?_, hitems, ?_⟩
    · show fetchWallet (db.wallets.map fun v =>
          if v.user_id = uid then { v with steal_uses := v.steal_uses + 1 } else v) uid = _
      rw [fetchWallet_map_update db.wallets uid
          (fun v => { v with steal_uses := v.steal_uses + 1 }) (fun v => rfl), hw]
      rfl
    · show fetchWallet (db.wallets.map fun v =>
          if v.user_id = uid then { v with steal_success := v.steal_success + 1 } else v) uid = _
      rw [fetchWallet_map_update db.wallets uid
          (fun v => { v with steal_success := v.steal_success + 1 }) (fun v => rfl), hw]
      rfl
  · intro hnone
    have hitems : (matchedWallets db.wallets uid != 0) = false := by
      simpa using matchedWallets_eq_zero hnone
    constructor
    · show ({ db with wallets := db.wallets.map fun v =>
          if v.user_id = uid then { v with steal_uses := v.steal_uses + 1 } else v },
          (matchedWallets db.wallets uid != 0)) = (db, false)
      rw [map_update_of_none (fun v => { v with steal_uses := v.steal_uses + 1 }) hnone,
        hitems]
    · show ({ db with wallets := db.wallets.map fun v =>
          if v.user_id = uid then { v with steal_success := v.steal_success + 1 } else v },
          (matchedWallets db.wallets uid != 0)) = (db, false)
      rw [map_update_of_none (fun v => { v with steal_success := v.steal_success + 1 }) hnone,
        hitems]

/-- Witness exercising C7 on a store holding wallet 7 and on the absent
wallet 9. -/
theorem inc_steal_matched_or_absent_witness :
    ((inc_steal_use ⟨[], [⟨7, 0, 0, 0⟩], []⟩ 7).2 = true ∧
     fetchWallet (inc_steal_use ⟨[], [⟨7, 0, 0, 0⟩], []⟩ 7).1.wallets 7 =
       some ⟨7, 0, 1, 0⟩ ∧
     (inc_steal_success ⟨[], [⟨7, 0, 0, 0⟩], []⟩ 7).2 = true ∧
     fetchWallet (inc_steal_success ⟨[], [⟨7, 0, 0, 0⟩], []⟩ 7).1.wallets 7 =
       some ⟨7, 0, 0, 1⟩) ∧
    (inc_steal_use ⟨[], [⟨7, 0, 0, 0⟩], []⟩ 9 = (⟨[], [⟨7, 0, 0, 0⟩], []⟩, false) ∧
     inc_steal_success ⟨[], [⟨7, 0, 0, 0⟩], []⟩ 9 = (⟨[], [⟨7, 0, 0, 0⟩], []⟩, false)) :=
  ⟨(inc_steal_matched_or_absent ⟨[], [⟨7, 0, 0, 0⟩], []⟩ 7).1 ⟨7, 0, 0, 0⟩ rfl,
   (inc_steal_matched_or_absent ⟨[], [⟨7, 0, 0, 0⟩], []⟩ 9).2 rfl⟩

/-- A store holding one account whose type is neither USER (0) nor
TAXBANK (1): such accounts are creatable, since `create_account` inserts the
request-supplied type integer unvalidated. -/
def dbOther : DB :=
  ⟨[⟨3, 2, 5⟩], [], []⟩

/-- Counterexample to C8: an account of type 2 (creatable through
`create_account`, which never validates the type field) is counted by
`get_gdp` but by neither per-type sum, so GDP differs from user + taxbank on
`dbOther` even though the store is quiescent. -/
theorem gdp_type_sums_counterexample :
    create_account dbEmpty 3 2 false = (⟨[⟨3, 2, defaultAmount⟩], [], []⟩, true) ∧
    get_gdp dbOther ≠
      getsum dbOther AccountType.USER + getsum dbOther AccountType.TAXBANK := by
  constructor
  · rfl
  · norm_num [get_gdp, getsum, dbOther, AccountType.USER, AccountType.TAXBANK]

lemma amount_split_by_type (l : List AccountRow)
    (h : ∀ a ∈ l, a.account_type = 0 ∨ a.account_type = 1) :
    (l.map (·.amount)).sum =
      ((l.filter fun a => decide (a.account_type = 0)).map (·.amount)).sum +
      ((l.filter fun a => decide (a.account_type = 1)).map (·.amount)).sum := by
  induction l with
  | nil => simp
  | cons a rest ih =>
    have hrest := ih fun b hb => h b (List.mem_cons_of_mem a hb)
    rcases h a (List.mem_cons_self _ _) with h0 | h1
    · simp only [List.map_cons, List.sum_cons, List.filter_cons, h0]
      norm_num
      rw [hrest]
      ring
    · simp only [List.map_cons, List.sum_cons, List.filter_cons, h1]
      norm_num
      rw [hrest]
      ring

/-- Claim C8 as amended: at any quiescent point, GDP() equals
SumsByType().user + SumsByType().taxbank for every store state whose
accounts all carry type USER or TAXBANK; an account with any other type
value breaks the identity (see the counterexample). -/
theorem gdp_eq_type_sums_amended (db : DB)
    (htypes : ∀ a ∈ db.accounts,
      a.account_type = AccountType.USER ∨ a.account_type = AccountType.TAXBANK) :
    get_gdp db = getsum db AccountType.USER + getsum db AccountType.TAXBANK := by
  unfold get_gdp getsum
  exact amount_split_by_type db.accounts htypes

/-- Witness for the amended C8 on a store of two USER accounts. -/
theorem gdp_eq_type_sums_amended_witness :
    get_gdp db0 = getsum db0 AccountType.USER + getsum db0 AccountType.TAXBANK :=
  gdp_eq_type_sums_amended db0 (by decide)

/-- A store whose single account has type USER but no wallet row. -/
def dbOrphan : DB :=
  ⟨[⟨5, 0, 0⟩], [], []⟩

/-- Claim C10: for an account whose row has type USER but with no matching
Wallet row, get_wallet neither returns a well-formed view nor raises
AccountNotFound: the unconditional `daccount.update(dict(wallet))` runs
`dict(None)`, which raises TypeError, an unhandled internal error. -/
theorem get_wallet_orphaned_user_internal_error (db : DB) (account_id : Int)
    (account : AccountRow)
    (hacc : fetchAccount db.accounts account_id = some account)
    (htype : account.account_type = AccountType.USER)
    (hw : fetchWallet db.wallets account_id = none) :
    get_wallet db account_id = .error (.internalError "TypeError") := by
  unfold get_wallet
  rw [hacc]
  simp only [if_pos htype, hw]

/-- Witness for C10: account 5 is USER and the wallets table is empty. -/
theorem get_wallet_orphaned_user_internal_error_witness :
    get_wallet dbOrphan 5 = .error (.internalError "TypeError") :=
  get_wallet_orphaned_user_internal_error dbOrphan 5 ⟨5, 0, 0⟩ rfl rfl rfl

/-!
Interleaving model for N concurrent `transfer` requests that all debit one
shared sender (each crediting some distinct receiver, so only the sender
balance is tracked and the self-transfer check of line 106 passes).  Each
request runs in two phases, exactly as in josecoin.py: the advisory phase
(lines 106-131) runs the minimum-amount check of line 109 - raising
InputError when `amount < minAmount` before any store read - and then reads
the sender balance at that moment, passing or raising ConditionError; the
commit phase (lines 133-151) runs the transaction, whose debit
`SET amount = accounts.amount - $1` is unconditional: it subtracts from the
balance current at commit time whatever the advisory read saw earlier.
-/

/-- Phase a single in-flight transfer request is in. -/
inductive TStatus where
  | notStarted
  | validated
  | succeeded
  | condError
  | inputError
deriving DecidableEq, Repr

/-- Shared-sender state under N in-flight transfers: the sender balance and
each request's phase. -/
structure ConcState (n : Nat) where
  balance : ℚ
  status : Fin n → TStatus

/-- One scheduler step: request i raises InputError at the minimum-amount
check of line 109, passes its advisory checks (line 109 and the balance
check of line 130), raises ConditionError at the balance check, or commits
its unconditional debit. -/
inductive TransferStep {n : Nat} (amounts : Fin n → ℚ) :
    ConcState n → ConcState n → Prop where
  | rejectMin {s : ConcState n} (i : Fin n)
      (hst : s.status i = TStatus.notStarted)
      (hlt : amounts i < minAmount) :
      TransferStep amounts s ⟨s.balance, Function.update s.status i TStatus.inputError⟩
  | validate {s : ConcState n} (i : Fin n)
      (hst : s.status i = TStatus.notStarted)
      (hmin : ¬ amounts i < minAmount)
      (hok : amounts i ≤ s.balance) :
      TransferStep amounts s ⟨s.balance, Function.update s.status i TStatus.validated⟩
  | reject {s : ConcState n} (i : Fin n)
      (hst : s.status i = TStatus.notStarted)
      (hmin : ¬ amounts i < minAmount)
      (hfail : s.balance < amounts i) :
      TransferStep amounts s ⟨s.balance, Function.update s.status i TStatus.condError⟩
  | commit {s : ConcState n} (i : Fin n)
      (hst : s.status i = TStatus.validated) :
      TransferStep amounts s
        ⟨s.balance - amounts i, Function.update s.status i TStatus.succeeded⟩

/-- Initial state: full balance, no request started. -/
def initConc (n : Nat) (B : ℚ) : ConcState n :=
  ⟨B, fun _ => TStatus.notStarted⟩

/-- Reachability under any interleaving of the scheduler steps. -/
def ConcReachable {n : Nat} (amounts : Fin n → ℚ) :
    ConcState n → ConcState n → Prop :=
  Relation.ReflTransGen (TransferStep amounts)

/-- All N requests have finished, each in success, in ConditionError or in
InputError. -/
def ConcDone {n : Nat} (s : ConcState n) : Prop :=
  ∀ i, s.status i = TStatus.succeeded ∨ s.status i = TStatus.condError ∨
    s.status i = TStatus.inputError

instance {n : Nat} (s : ConcState n) : Decidable (ConcDone s) :=
  inferInstanceAs
    (Decidable (∀ i, s.status i = TStatus.succeeded ∨ s.status i = TStatus.condError ∨
      s.status i = TStatus.inputError))

/-- Total amount already debited by committed requests. -/
def succAmounts {n : Nat} (amounts : Fin n → ℚ) (s : ConcState n) : ℚ :=
  ∑ i ∈ Finset.univ.filter (fun i => s.status i = TStatus.succeeded), amounts i

/-- Invariant when the requested amounts each pass the minimum-amount check
and sum to the initial balance: the balance is the initial one minus the
committed debits, and no request has been rejected at either advisory
check. -/
def ConcInv {n : Nat} (amounts : Fin n → ℚ) (B : ℚ) (s : ConcState n) : Prop :=
  s.balance = B - succAmounts amounts s ∧
  ∀ i, s.status i ≠ TStatus.condError ∧ s.status i ≠ TStatus.inputError

lemma update_preserves_ne {n : Nat} (f : Fin n → TStatus) (i : Fin n) (v : TStatus)
    (hv1 : v ≠ TStatus.condError) (hv2 : v ≠ TStatus.inputError)
    (h : ∀ j, f j ≠ TStatus.condError ∧ f j ≠ TStatus.inputError) :
    ∀ j, Function.update f i v j ≠ TStatus.condError ∧
      Function.update f i v j ≠ TStatus.inputError := by
  intro j
  by_cases hj : j = i
  · subst hj
    rw [Function.update_same]
    exact ⟨hv1, hv2⟩
  · rw [Function.update_noteq hj]
    exact h j

lemma concInv_init (n : Nat) (amounts : Fin n → ℚ) (B : ℚ) :
    ConcInv amounts B (initConc n B) := by
  constructor
  · show B = B - succAmounts amounts (initConc n B)
    have hz : succAmounts amounts (initConc n B) = 0 := by
      unfold succAmounts initConc
      simp
    rw [hz]
    ring
  · intro i
    show TStatus.notStarted ≠ TStatus.condError ∧ TStatus.notStarted ≠ TStatus.inputError
    constructor
    · simp
    · simp

lemma concInv_step {n : Nat} {amounts : Fin n → ℚ} {B : ℚ} {s t : ConcState n}
    (hmin : ∀ i, minAmount ≤ amounts i) (hsum : ∑ i, amounts i = B)
    (hstep : TransferStep amounts s t) (hinv : ConcInv amounts B s) :
    ConcInv amounts B t := by
  have hpos : ∀ i, 0 ≤ amounts i := fun i =>
    le_trans (by norm_num [minAmount]) (hmin i)
  obtain ⟨hbal, herr⟩ := hinv
  cases hstep with
  | rejectMin i hst hlt =>
    exact absurd hlt (not_lt.mpr (hmin i))
  | validate i hst hminchk hok =>
    constructor
    · have hset : (Finset.univ.filter fun j =>
          Function.update s.status i TStatus.validated j = TStatus.succeeded) =
          Finset.univ.filter fun j => s.status j = TStatus.succeeded := by
        apply Finset.filter_congr
        intro j _
        by_cases hj : j = i
        · subst hj
          rw [Function.update_same, hst]
          simp
        · rw [Function.update_noteq hj]
      show s.balance = B - succAmounts amounts ⟨s.balance, _⟩
      unfold succAmounts at hbal ⊢
      rw [hset]
      exact hbal
    · exact update_preserves_ne s.status i TStatus.validated (by simp) (by simp) herr
  | reject i hst hminchk hfail =>
    exfalso
    set S := Finset.univ.filter (fun j => s.status j = TStatus.succeeded) with hS
    have hsdiff : ∑ j ∈ Finset.univ \ S, amounts j + ∑ j ∈ S, amounts j =
        ∑ j, amounts j := Finset.sum_sdiff (Finset.filter_subset _ _)
    have hi : i ∈ Finset.univ \ S := by
      rw [Finset.mem_sdiff, hS]
      refine ⟨Finset.mem_univ i, ?_⟩
      rw [Finset.mem_filter]
      rintro ⟨-, hcon⟩
      rw [hst] at hcon
      cases hcon
    have hle : amounts i ≤ ∑ j ∈ Finset.univ \ S, amounts j :=
      Finset.single_le_sum (fun j _ => hpos j) hi
    have hsb : s.balance = ∑ j ∈ Finset.univ \ S, amounts j := by
      rw [hbal]
      unfold succAmounts
      rw [← hS, ← hsum]
      linarith [hsdiff]
    linarith
  | commit i hst =>
    constructor
    · have hnotmem : i ∉ Finset.univ.filter (fun j => s.status j = TStatus.succeeded) := by
        rw [Finset.mem_filter]
        rintro ⟨-, hcon⟩
        rw [hst] at hcon
        cases hcon
      have hset : (Finset.univ.filter fun j =>
          Function.update s.status i TStatus.succeeded j = TStatus.succeeded) =
          insert i (Finset.univ.filter fun j => s.status j = TStatus.succeeded) := by
        ext j
        simp only [Finset.mem_filter, Finset.mem_univ, true_and, Finset.mem_insert]
        by_cases hj : j = i
        · subst hj
          rw [Function.update_same]
          simp
        · rw [Function.update_noteq hj]
          simp [hj]
      show s.balance - amounts i = B - succAmounts amounts ⟨s.balance - amounts i, _⟩
      unfold succAmounts at hbal ⊢
      rw [hset, Finset.sum_insert hnotmem, hbal]
      ring
    · exact update_preserves_ne s.status i TStatus.succeeded (by simp) (by simp) herr

lemma concInv_reachable {n : Nat} {amounts : Fin n → ℚ} {B : ℚ} {s0 s : ConcState n}
    (hmin : ∀ i, minAmount ≤ amounts i) (hsum : ∑ i, amounts i = B)
    (hreach : ConcReachable amounts s0 s) (hinv : ConcInv amounts B s0) :
    ConcInv amounts B s := by
  induction hreach with
  | refl => exact hinv
  | tail hab hbc ih => exact concInv_step hmin hsum hbc ih

/-- Claim C9 as amended: when the N amounts each pass the minimum-amount
check (amount at least `minAmount`, line 109) and sum to exactly the
initial sender balance, every interleaving that runs all requests to
completion ends with all N transfers succeeded and the balance exactly 0 -
never negative.  This outcome rests solely on the advisory pre-transaction
read; the debit inside the transaction is unconditional, and interleavings
whose amounts exceed the balance can overdraw (see the counterexample). -/
theorem transfer_concurrent_exact_sum_amended {n : Nat} (amounts : Fin n → ℚ)
    (B : ℚ) (hmin : ∀ i, minAmount ≤ amounts i) (hsum : ∑ i, amounts i = B)
    (s : ConcState n) (hreach : ConcReachable amounts (initConc n B) s)
    (hdone : ConcDone s) :
    (∀ i, s.status i = TStatus.succeeded) ∧ s.balance = 0 := by
  have hinv := concInv_reachable hmin hsum hreach (concInv_init n amounts B)
  have hall : ∀ i, s.status i = TStatus.succeeded := by
    intro i
    rcases hdone i with h | h | h
    · exact h
    · exact absurd h (hinv.2 i).1
    · exact absurd h (hinv.2 i).2
  refine ⟨hall, ?_⟩
  have hfull : (Finset.univ.filter fun j => s.status j = TStatus.succeeded) =
      Finset.univ :=
    Finset.filter_true_of_mem fun j _ => hall j
  have hB : succAmounts amounts s = B := by
    unfold succAmounts
    rw [hfull]
    exact hsum
  rw [hinv.1, hB]
  ring

/-- Two concurrent requests of 100 each against a balance of 100. -/
def amountsOver : Fin 2 → ℚ :=
  fun _ => 100

/-- The overdraft interleaving: both requests pass their advisory check
before either commits. -/
def over0 : ConcState 2 :=
  initConc 2 100

def over1 : ConcState 2 :=
  ⟨over0.balance, Function.update over0.status 0 TStatus.validated⟩

def over2 : ConcState 2 :=
  ⟨over1.balance, Function.update over1.status 1 TStatus.validated⟩

def over3 : ConcState 2 :=
  ⟨over2.balance - amountsOver 0, Function.update over2.status 0 TStatus.succeeded⟩

def over4 : ConcState 2 :=
  ⟨over3.balance - amountsOver 1, Function.update over3.status 1 TStatus.succeeded⟩

/-- Counterexample to C9: the insufficient-funds precondition is NOT
re-enforced inside the atomic update - the debit statement is
unconditional.  Under the interleaving read-read-commit-commit, two
transfers of 100 against a balance of 100 both succeed and the sender
balance reaches -100: with the precondition enforced inside the update the
balance could never go negative. -/
theorem transfer_concurrent_overdraft_counterexample :
    ConcReachable amountsOver (initConc 2 100) over4 ∧
    ConcDone over4 ∧
    (∀ i, over4.status i = TStatus.succeeded) ∧
    over4.balance = -100 := by
  refine ⟨?_, by decide, by decide, ?_⟩
  · have h1 : TransferStep amountsOver over0 over1 :=
      .validate 0 (by decide) (by norm_num [amountsOver, minAmount])
        (by norm_num [amountsOver, over0, initConc])
    have h2 : TransferStep amountsOver over1 over2 :=
      .validate 1 (by decide) (by norm_num [amountsOver, minAmount])
        (by norm_num [amountsOver, over1, over0, initConc])
    have h3 : TransferStep amountsOver over2 over3 :=
      .commit 0 (by decide)
    have h4 : TransferStep amountsOver over3 over4 :=
      .commit 1 (by decide)
    exact (((Relation.ReflTransGen.refl.tail h1).tail h2).tail h3).tail h4
  · norm_num [over4, over3, over2, over1, over0, initConc, amountsOver]

/-- Two concurrent requests of 60 and 40 against a balance of 100. -/
def amountsEx : Fin 2 → ℚ :=
  fun i => if i = 0 then 60 else 40

def ex0 : ConcState 2 :=
  initConc 2 100

def ex1 : ConcState 2 :=
  ⟨ex0.balance, Function.update ex0.status 0 TStatus.validated⟩

def ex2 : ConcState 2 :=
  ⟨ex1.balance - amountsEx 0, Function.update ex1.status 0 TStatus.succeeded⟩

def ex3 : ConcState 2 :=
  ⟨ex2.balance, Function.update ex2.status 1 TStatus.validated⟩

def ex4 : ConcState 2 :=
  ⟨ex3.balance - amountsEx 1, Function.update ex3.status 1 TStatus.succeeded⟩

/-- Witness for the amended C9: transfers of 60 and 40 against a balance of
100, interleaved, both succeed and drain the balance to exactly 0. -/
theorem transfer_concurrent_exact_sum_amended_witness :
    (∀ i, ex4.status i = TStatus.succeeded) ∧ ex4.balance = 0 := by
  have h1 : TransferStep amountsEx ex0 ex1 :=
    .validate 0 (by decide) (by norm_num [amountsEx, minAmount])
      (by norm_num [amountsEx, ex0, initConc])
  have h2 : TransferStep amountsEx ex1 ex2 :=
    .commit 0 (by decide)
  have h3 : TransferStep amountsEx ex2 ex3 :=
    .validate 1 (by decide) (by norm_num [amountsEx, minAmount])
      (by norm_num [amountsEx, ex2, ex1, ex0, initConc])
  have h4 : TransferStep amountsEx ex3 ex4 :=
    .commit 1 (by decide)
  exact transfer_concurrent_exact_sum_amended amountsEx 100
    (by intro i; fin_cases i <;> norm_num [amountsEx, minAmount])
    (by norm_num [amountsEx, Fin.sum_univ_two])
    ex4
    ((((Relation.ReflTransGen.refl.tail h1).tail h2).tail h3).tail h4)
    (by decide)

end Josecoin
